import Mathlib

/-!
Verification of the squishy transcode-job engine specification against the
sources in `squishy/config.py` and `squishy/blueprints/ui.py`.

Python strings are modelled as Lean `String`; Python dicts that the code
iterates or looks up in insertion order are modelled as association lists;
JSON numbers read into `max_concurrent_jobs` are modelled as `Int`;
`os.path.getsize` results are modelled as `Option Nat` (`none` meaning the
call raised `FileNotFoundError`/`OSError`); float percentages are modelled
exactly as rationals.
-/

/-- Python `s.startswith(p)` on the character sequences of the strings. -/
def startswith (s p : String) : Bool :=
  p.data.isPrefixOf s.data

/-- Python `s.endswith(p)` on the character sequences of the strings. -/
def endswith (s p : String) : Bool :=
  p.data.isSuffixOf s.data

/-- POSIX `os.path.join(a, b)` for a single join step: an absolute second
component replaces the first; otherwise a separator is inserted unless one
is already present. -/
def joinPath (a b : String) : String :=
  if startswith b "/" then b
  else if a = "" ∨ endswith a "/" then a ++ b
  else a ++ "/" ++ b

/-- A named encode preset (`config.py` default preset entries; the engine
reads `codec`, `scale`, `container`, `audio_codec`, `audio_bitrate`, `crf`,
`allow_fallback`). -/
structure Preset where
  codec : String
  scale : String
  container : String
  audio_codec : String
  audio_bitrate : String
  crf : Int
  allow_fallback : Bool
deriving DecidableEq

/-- The fields of the JSON configuration document that the claims touch
(`config_data` in `load_config`). `none` models an absent key; dict-valued
keys are modelled as insertion-ordered association lists. Keys of the
document that no claim mentions (jellyfin/plex credentials, ffmpeg paths,
hardware settings, log level) are omitted. -/
structure ConfigDoc where
  media_path : Option String
  transcode_path : Option String
  path_mappings : Option (List (String × String))
  presets : Option (List (String × Preset))
  max_concurrent_jobs : Option Int

/-- The corresponding fields of the `Config` dataclass built by
`load_config`. -/
structure ConfigModel where
  media_path : String
  transcode_path : String
  path_mappings : List (String × String)
  presets : List (String × Preset)
  max_concurrent_jobs : Int

/-- `default_presets` from `load_config` (`config.py` lines 52-80). -/
def default_presets : List (String × Preset) :=
  [("high", { codec := "hevc", scale := "1080p", container := ".mkv",
              audio_codec := "aac", audio_bitrate := "192k",
              crf := 20, allow_fallback := true }),
   ("medium", { codec := "hevc", scale := "720p", container := ".mkv",
                audio_codec := "aac", audio_bitrate := "128k",
                crf := 24, allow_fallback := true }),
   ("low", { codec := "hevc", scale := "480p", container := ".mkv",
             audio_codec := "aac", audio_bitrate := "96k",
             crf := 28, allow_fallback := true })]

/-- `default_config` from `load_config` (`config.py` lines 83-93), restricted
to the modelled keys.  `max_concurrent_jobs` is not among its keys. -/
def default_config : ConfigDoc :=
  { media_path := some "/media",
    transcode_path := some "/transcodes",
    path_mappings := some [],
    presets := some default_presets,
    max_concurrent_jobs := none }

/-- `load_config` (`config.py` lines 41-160) on the modelled keys.  The
input is `none` when the config file does not exist, otherwise the parsed
JSON document.  When the file exists but its `presets` key is absent or
falsy (empty dict), the defaults are substituted (lines 107-112).  The final
`Config` is assembled with `config_data.get(key, default)` per field; the
`media_path` field uses Python `or`, so an empty string also falls back
(line 140). -/
def load_config (doc : Option ConfigDoc) : ConfigModel :=
  let config_data : ConfigDoc :=
    match doc with
    | none => default_config
    | some d =>
      match d.presets with
      | none => { d with presets := some default_presets }
      | some [] => { d with presets := some default_presets }
      | some _ => d
  { media_path :=
      match config_data.media_path with
      | none => "/media"
      | some s => if s = "" then "/media" else s,
    transcode_path := config_data.transcode_path.getD "/transcodes",
    path_mappings := config_data.path_mappings.getD [],
    presets := config_data.presets.getD default_presets,
    max_concurrent_jobs := config_data.max_concurrent_jobs.getD 1 }

/-- Modelled from the spec: `apply_output_path_mapping` lives in
`squishy.transcoder`, which is not among the sources; §4.5 Path Mapper:
scan the ordered mapping table for the first entry whose source prefix
matches the given path's prefix; if found, replace that prefix with the
destination prefix and return the result; if no entry matches, return the
path unchanged. -/
def apply_output_path_mapping (mappings : List (String × String)) (path : String) : String :=
  match mappings with
  | [] => path
  | (s, d) :: rest =>
    if startswith path s then ⟨d.data ++ path.data.drop s.data.length⟩
    else apply_output_path_mapping rest path

/-- Job status vocabulary (§3 data model; the source stores these as the
strings `"pending"`, `"processing"`, `"completed"`, `"failed"`,
`"cancelled"`). -/
inductive JStatus
  | pending
  | processing
  | completed
  | failed
  | cancelled
deriving DecidableEq

/-- The in-memory job registry `JOBS` (§4.2), keyed by job identifier in
insertion order. -/
abbrev Registry := List (Nat × JStatus)

/-- The number of jobs currently in `processing`. -/
def numProcessing (r : Registry) : Nat :=
  r.countP (fun p => decide (p.2 = JStatus.processing))

/-- Overwrite the status of the job with the given identifier. -/
def setStatus (r : Registry) (id : Nat) (st : JStatus) : Registry :=
  r.map (fun p => if p.1 = id then (id, st) else p)

/-- The head of the FIFO queue of `pending` jobs: the earliest-submitted
job still pending (§4.3 admission order). -/
def firstPending (r : Registry) : Option Nat :=
  (r.find? (fun p => decide (p.2 = JStatus.pending))).map (·.1)

/-- Terminal states accept no further transitions (§4.2). -/
def isTerminal : JStatus → Bool
  | JStatus.completed => true
  | JStatus.failed => true
  | JStatus.cancelled => true
  | _ => false

/-- Modelled from the spec: the Scheduler and Worker of `squishy.transcoder`
are not among the sources.  §4.2/§4.3/§5: every registry mutation happens
under the registry lock, so an execution is an interleaving of these atomic
steps — submission enqueues a fresh job as `pending`; admission requires a
free concurrency slot below the ceiling and moves the FIFO head of the
pending queue to `processing`; a Worker moves its `processing` job to one
terminal state; cancellation of a `pending` job moves it to `cancelled`;
removal deletes a terminal job. -/
inductive SchedStep (limit : Nat) : Registry → Registry → Prop
  | submit (r : Registry) (id : Nat) (hfresh : id ∉ r.map Prod.fst) :
      SchedStep limit r (r ++ [(id, JStatus.pending)])
  | admitJob (r : Registry) (id : Nat)
      (hslot : numProcessing r < limit)
      (hhead : firstPending r = some id) :
      SchedStep limit r (setStatus r id JStatus.processing)
  | finish (r : Registry) (id : Nat) (st : JStatus)
      (hrun : r.lookup id = some JStatus.processing)
      (hterm : isTerminal st = true) :
      SchedStep limit r (setStatus r id st)
  | cancelPending (r : Registry) (id : Nat)
      (hpend : r.lookup id = some JStatus.pending) :
      SchedStep limit r (setStatus r id JStatus.cancelled)
  | removeJob (r : Registry) (id : Nat) (st : JStatus)
      (hst : r.lookup id = some st)
      (hterm : isTerminal st = true) :
      SchedStep limit r (r.filter (fun p => decide (p.1 ≠ id)))

/-- Registry states reachable from the empty registry by scheduler steps. -/
inductive Reachable (limit : Nat) : Registry → Prop
  | init : Reachable limit []
  | step {r r' : Registry} :
      Reachable limit r → SchedStep limit r r' → Reachable limit r'

/-- The redirect targets the UI blueprint uses (`url_for` endpoints). -/
inductive Route
  | index
  | mediaDetail (media_id : String)
  | showDetail (show_id : Option String)
  | jobsPage
  | completedPage
deriving DecidableEq

/-- A flash message together with its category and the redirect a route
handler returns. -/
structure UIResponse where
  flash : String
  flashCategory : String
  redirect : Route
deriving DecidableEq

/-- `movie` or `episode` (`media_item.type` in `ui.py`). -/
inductive MediaType
  | movie
  | episode
deriving DecidableEq

/-- The fields of a catalog media item that `ui.py` reads. -/
structure MediaItem where
  id : String
  type : MediaType
  show_id : Option String
  path : String
  display_name : String
deriving DecidableEq

/-- The fields of a catalog show that `ui.py` reads. -/
structure ShowInfo where
  title : String
deriving DecidableEq

/-- Observable outcome of the `transcode` route: whether `create_job` /
`start_transcode` were invoked, the flash shown, and the redirect. -/
structure TranscodeOutcome where
  jobCreated : Bool
  jobStarted : Bool
  flash : String
  redirect : Route
deriving DecidableEq

/-- The `transcode` route handler (`ui.py` lines 112-139).  `getMediaResult`
is the value of `get_media(media_id)`; `cfg` is `load_config()`. -/
def transcode (getMediaResult : Option MediaItem) (cfg : ConfigModel)
    (preset_name : String) : TranscodeOutcome :=
  match getMediaResult with
  | none =>
    { jobCreated := false, jobStarted := false,
      flash := "Media not found", redirect := Route.index }
  | some media_item =>
    if preset_name ∈ cfg.presets.map Prod.fst then
      { jobCreated := true, jobStarted := true,
        flash := "Transcoding job started with preset: " ++ preset_name,
        redirect :=
          match media_item.type with
          | MediaType.movie => Route.mediaDetail media_item.id
          | MediaType.episode => Route.showDetail media_item.show_id }
    else
      { jobCreated := false, jobStarted := false,
        flash := "Invalid preset",
        redirect :=
          match media_item.type with
          | MediaType.movie => Route.mediaDetail media_item.id
          | MediaType.episode => Route.showDetail media_item.show_id }

/-- A job as the `jobs` view reads it: its status string and the fields the
view dereferences. -/
structure Job where
  id : String
  media_id : String
  status : String
  output_path : Option String
deriving DecidableEq

/-- How the jobs/completed views render sizes: the original size alone, the
output size alone, a stored string, or the pair with the exact
percentage-smaller figure. -/
inductive SizeDisplay
  | origOnly (origBytes : Nat)
  | outOnly (outBytes : Nat)
  | stored (s : String)
  | cmp (origBytes outBytes : Nat) (pct : ℚ)
  | na
deriving DecidableEq

/-- The collaborators the views consult: `get_media`, `get_show`,
`os.path.getsize` (`none` models a raised `FileNotFoundError`/`OSError`)
and `os.path.exists`. -/
structure JobsEnv where
  getMedia : String → Option MediaItem
  getShow : String → Option ShowInfo
  fileSize : String → Option Nat
  pathExists : String → Bool

/-- Media title shown for a job (`ui.py` lines 176-183). -/
def job_title (env : JobsEnv) (media_item : MediaItem) : String :=
  match media_item.type, media_item.show_id with
  | MediaType.episode, some sid =>
    match env.getShow sid with
    | some sh => sh.title ++ " - " ++ media_item.display_name
    | none => media_item.display_name
  | _, _ => media_item.display_name

/-- Size display of one job row (`ui.py` lines 155-173): `none` models the
`except` branch (a `getsize` raised); the compression percentage is computed
only when the original size is strictly positive. -/
def job_size_display (env : JobsEnv) (job : Job) (media_item : MediaItem) :
    Option SizeDisplay :=
  match env.fileSize media_item.path with
  | none => none
  | some file_size_bytes =>
    match job.output_path with
    | some op =>
      if job.status = "completed" ∧ op ≠ "" ∧ env.pathExists op = true then
        match env.fileSize op with
        | none => none
        | some output_size_bytes =>
          if 0 < file_size_bytes then
            some (SizeDisplay.cmp file_size_bytes output_size_bytes
              (100 - ((output_size_bytes : ℚ) / (file_size_bytes : ℚ) * 100)))
          else some (SizeDisplay.origOnly file_size_bytes)
      else some (SizeDisplay.origOnly file_size_bytes)
    | none => some (SizeDisplay.origOnly file_size_bytes)

/-- One `job_data` dict of the `jobs` view. -/
structure JobData where
  job : Job
  media_title : String
  file_size : SizeDisplay
deriving DecidableEq

/-- Build the `job_data` dict for one job (`ui.py` lines 152-215): media
missing gives title `"Unknown"`, a raised `getsize` gives the plain
display name and size `"N/A"`, otherwise title and sizes are computed. -/
def mk_job_data (env : JobsEnv) (job : Job) : JobData :=
  match env.getMedia job.media_id with
  | none => { job := job, media_title := "Unknown", file_size := SizeDisplay.na }
  | some media_item =>
    match job_size_display env job media_item with
    | none =>
      { job := job, media_title := media_item.display_name,
        file_size := SizeDisplay.na }
    | some sd =>
      { job := job, media_title := job_title env media_item, file_size := sd }

/-- The three status groups of the `jobs` view. -/
inductive JobGroup
  | active
  | completedGroup
  | failedGroup
deriving DecidableEq

/-- Which group a job lands in (`ui.py` lines 192-197, identically repeated
at 208-213 and 217-223). -/
def categorize (job : Job) : JobGroup :=
  if job.status = "processing" ∨ job.status = "pending" then JobGroup.active
  else if job.status = "completed" then JobGroup.completedGroup
  else JobGroup.failedGroup

/-- The stable sort of active jobs by the key `0 if processing else 1`
(`ui.py` line 226): a stable sort on a two-valued key is the processing
rows in order followed by the remaining rows in order. -/
def sortActive (l : List JobData) : List JobData :=
  l.filter (fun jd => decide (jd.job.status = "processing")) ++
  l.filter (fun jd => decide (jd.job.status ≠ "processing"))

/-- The `jobs` view (`ui.py` lines 142-233): iterate `JOBS.values()` in
order, append each row's `job_data` to exactly one of the three lists, then
sort the active list. -/
def jobs (env : JobsEnv) (jobList : List Job) :
    List JobData × List JobData × List JobData :=
  let grouped := jobList.foldl
    (fun acc job =>
      let job_data := mk_job_data env job
      match categorize job with
      | JobGroup.active => (acc.1 ++ [job_data], acc.2.1, acc.2.2)
      | JobGroup.completedGroup => (acc.1, acc.2.1 ++ [job_data], acc.2.2)
      | JobGroup.failedGroup => (acc.1, acc.2.1, acc.2.2 ++ [job_data]))
    ([], [], [])
  (sortActive grouped.1, grouped.2.1, grouped.2.2)

/-- Modelled from the spec: `cancel_job` of `squishy.transcoder` is not
among the sources.  §4.2: cancelling a `pending` or `processing` job
succeeds; cancelling an already-terminal job is a no-op reported as
"could not cancel", as is cancelling an unknown job id. -/
def cancel_transcode_job (r : Registry) (job_id : Nat) : Bool :=
  match r.lookup job_id with
  | none => false
  | some st => !(isTerminal st)

/-- The `cancel_job` route handler (`ui.py` lines 236-246). -/
def cancel_job (r : Registry) (job_id : Nat) : UIResponse :=
  if cancel_transcode_job r job_id then
    { flash := "Job cancelled successfully", flashCategory := "message",
      redirect := Route.jobsPage }
  else
    { flash := "Could not cancel job", flashCategory := "error",
      redirect := Route.jobsPage }

/-- One completed-transcode record as the `completed` view reads it. -/
structure CompletedRecord where
  original_path : Option String
  file_path : String
  output_size : Option String
deriving DecidableEq

/-- Size comparison of one row of the `completed` view (`ui.py` lines
270-289).  `none` models a raised `getsize` (this part of the view is not
wrapped in `try`); the compression percentage is computed only when the
original size is strictly positive. -/
def completed_size_display (env : JobsEnv) (rec : CompletedRecord) :
    Option SizeDisplay :=
  match rec.original_path with
  | some op =>
    if env.pathExists op = true then
      match env.fileSize op, env.fileSize rec.file_path with
      | some original_size_bytes, some output_size_bytes =>
        some (if 0 < original_size_bytes then
          SizeDisplay.cmp original_size_bytes output_size_bytes
            (100 - ((output_size_bytes : ℚ) / (original_size_bytes : ℚ) * 100))
        else SizeDisplay.outOnly output_size_bytes)
      | _, _ => none
    else some (SizeDisplay.stored (rec.output_size.getD "Unknown"))
  | none => some (SizeDisplay.stored (rec.output_size.getD "Unknown"))

/-- The filesystem operations `download_file` consults. -/
structure FS where
  pathExists : String → Bool
  isfile : String → Bool
  realpath : String → String

/-- Result of the `download_file` route: a file sent as attachment, or a
flash plus redirect to the completed page. -/
inductive DlResult
  | sendFile (path : String)
  | redirectCompleted (flash : String)
deriving DecidableEq

/-- The local `transcode_path` of `download_file` after path mapping
(`ui.py` lines 299-302). -/
def mapped_transcode_path (cfg : ConfigModel) : String :=
  apply_output_path_mapping cfg.path_mappings cfg.transcode_path

/-- The local `file_path` of `download_file` (`ui.py` line 304). -/
def download_file_path (cfg : ConfigModel) (filename : String) : String :=
  joinPath (mapped_transcode_path cfg) filename

/-- The `download_file` route handler (`ui.py` lines 294-319). -/
def download_file (fs : FS) (cfg : ConfigModel) (filename : String) : DlResult :=
  let file_path := download_file_path cfg filename
  if ¬ (fs.pathExists file_path = true ∧ fs.isfile file_path = true) then
    DlResult.redirectCompleted "File not found"
  else if ¬ startswith (fs.realpath file_path)
      (fs.realpath (mapped_transcode_path cfg)) = true then
    DlResult.redirectCompleted "Invalid file path"
  else DlResult.sendFile file_path

/-- The completed-transcode store under the transcode root: which output
files exist, which have a sidecar metadata record, and which the filesystem
lets us remove. -/
structure CompletedStore where
  files : List String
  metaFiles : List String
  removable : String → Bool

/-- Modelled from the spec: `delete_transcode` of `squishy.completed` is
not among the sources.  §4.6: remove both the output file and its metadata
record, failing with a descriptive message if the file does not exist or
cannot be removed; deletion of a file with no matching metadata is still
attempted and reported distinctly. -/
def delete_transcode (store : CompletedStore) (filename : String) :
    (Bool × String) × CompletedStore :=
  if filename ∈ store.files then
    if store.removable filename then
      if filename ∈ store.metaFiles then
        ((true, "removed " ++ filename ++ " and its metadata"),
         { files := store.files.filter (fun f => decide (f ≠ filename)),
           metaFiles := store.metaFiles.filter (fun f => decide (f ≠ filename)),
           removable := store.removable })
      else
        ((true, "removed " ++ filename ++ " (no metadata record found)"),
         { files := store.files.filter (fun f => decide (f ≠ filename)),
           metaFiles := store.metaFiles,
           removable := store.removable })
    else ((false, "could not remove " ++ filename), store)
  else ((false, "file " ++ filename ++ " does not exist"), store)

/-- The `delete_completed_transcode` route handler (`ui.py` lines
348-363). -/
def delete_completed_transcode (store : CompletedStore) (filename : String) :
    UIResponse × CompletedStore :=
  let res := delete_transcode store filename
  (if res.1.1 then
    { flash := "Transcode deleted: " ++ res.1.2, flashCategory := "message",
      redirect := Route.completedPage }
  else
    { flash := "Error deleting transcode: " ++ res.1.2, flashCategory := "error",
      redirect := Route.completedPage },
   res.2)

/-- A concrete movie item used to evaluate the theorems below on a point. -/
def movie0 : MediaItem :=
  { id := "m1", type := MediaType.movie, show_id := none,
    path := "/media/m1.mkv", display_name := "M1" }

/-- A concrete view environment: the movie above, original size 4 bytes,
all other files 1 byte, every path existing. -/
def env0 : JobsEnv :=
  { getMedia := fun _ => some movie0,
    getShow := fun _ => none,
    fileSize := fun p => if p = "/media/m1.mkv" then some 4 else some 1,
    pathExists := fun _ => true }

/-- A concrete completed job for the movie above. -/
def job0 : Job :=
  { id := "j1", media_id := "m1", status := "completed",
    output_path := some "/transcodes/m1.mkv" }

/-- A concrete completed-transcode record without an original path. -/
def rec0 : CompletedRecord :=
  { original_path := none, file_path := "/transcodes/m1.mkv",
    output_size := some "1 KB" }

/-- A concrete filesystem on which every path exists, every path is a
regular file, and realpath is the identity. -/
def fs0 : FS :=
  { pathExists := fun _ => true, isfile := fun _ => true,
    realpath := fun s => s }

/-- A concrete completed-transcode store holding one tracked artifact. -/
def store0 : CompletedStore :=
  { files := ["a.mkv"], metaFiles := ["a.mkv"], removable := fun _ => true }

/-- A concrete config document that sets `max_concurrent_jobs` to 0. -/
def doc0 : ConfigDoc :=
  { media_path := none, transcode_path := none, path_mappings := none,
    presets := none, max_concurrent_jobs := some 0 }

/-- A concrete config document that sets `max_concurrent_jobs` to 7. -/
def doc7 : ConfigDoc :=
  { media_path := none, transcode_path := none, path_mappings := none,
    presets := none, max_concurrent_jobs := some 7 }

/-- A concrete config document with every modelled key absent. -/
def docEmpty : ConfigDoc :=
  { media_path := none, transcode_path := none, path_mappings := none,
    presets := none, max_concurrent_jobs := none }

/-- Unfolding `startswith` to list-prefix form. -/
theorem startswith_iff {s p : String} : startswith s p = true ↔ p.data <+: s.data := by
  simp [startswith, List.isPrefixOf_iff_prefix]

/-- Two prefixes of the same list are comparable; specialised to an
appended list. -/
theorem prefix_append_cases {α : Type} :
    ∀ (b a c : List α), a <+: b ++ c → a <+: b ∨ b <+: a := by
  intro b
  induction b with
  | nil => intro a c _; right; exact List.nil_prefix
  | cons x bs ih =>
    intro a c h
    cases a with
    | nil => left; exact List.nil_prefix
    | cons y as =>
      rw [List.cons_append, List.cons_prefix_cons] at h
      obtain ⟨rfl, h2⟩ := h
      rcases ih as c h2 with h3 | h3
      · left; exact List.cons_prefix_cons.mpr ⟨rfl, h3⟩
      · right; exact List.cons_prefix_cons.mpr ⟨rfl, h3⟩

/-- A path matched by no source prefix is returned unchanged. -/
theorem apply_output_path_mapping_nomatch (m : List (String × String)) (p : String)
    (h : ∀ e ∈ m, startswith p e.1 = false) : apply_output_path_mapping m p = p := by
  induction m with
  | nil => rfl
  | cons e rest ih =>
    obtain ⟨s, d⟩ := e
    have hs := h (s, d) (List.mem_cons_self _ _)
    simp only [apply_output_path_mapping, hs, Bool.false_eq_true, if_false]
    exact ih fun e' he' => h e' (List.mem_cons_of_mem _ he')

/-- The first matching entry wins: entries before it do not match and its
destination replaces the matched source prefix. -/
theorem apply_output_path_mapping_first (m₁ : List (String × String)) (s d : String)
    (m₂ : List (String × String)) (p : String)
    (h₁ : ∀ e ∈ m₁, startswith p e.1 = false) (hs : startswith p s = true) :
    apply_output_path_mapping (m₁ ++ (s, d) :: m₂) p
      = ⟨d.data ++ p.data.drop s.data.length⟩ := by
  induction m₁ with
  | nil => simp [apply_output_path_mapping, hs]
  | cons e rest ih =>
    obtain ⟨s', d'⟩ := e
    have hs' := h₁ (s', d') (List.mem_cons_self _ _)
    simp only [List.cons_append, apply_output_path_mapping, hs', Bool.false_eq_true, if_false]
    exact ih fun e' he' => h₁ e' (List.mem_cons_of_mem _ he')

/-- The mapping either leaves the path unchanged or rewrites it along some
matching entry of the table. -/
theorem apply_output_path_mapping_cases (m : List (String × String)) (p : String) :
    apply_output_path_mapping m p = p ∨
    ∃ s d, (s, d) ∈ m ∧ startswith p s = true ∧
      apply_output_path_mapping m p = ⟨d.data ++ p.data.drop s.data.length⟩ := by
  induction m with
  | nil => left; rfl
  | cons e rest ih =>
    obtain ⟨s, d⟩ := e
    by_cases hs : startswith p s = true
    · right
      exact ⟨s, d, List.mem_cons_self _ _, hs, by simp [apply_output_path_mapping, hs]⟩
    · have hs' : startswith p s = false := by
        cases hb : startswith p s
        · rfl
        · exact absurd hb hs
      rcases ih with h | ⟨s', d', hm, hsm, he⟩
      · left; simpa [apply_output_path_mapping, hs'] using h
      · right
        exact ⟨s', d', List.mem_cons_of_mem _ hm, hsm,
          by simpa [apply_output_path_mapping, hs'] using he⟩

/-- C3 counterexample: for the table `[("ab", "a")]` the destination
prefix `"a"` does not start with the source prefix `"ab"`, so the claimed
side condition holds, yet mapping `"abb"` gives `"ab"` and mapping again
gives `"a"`, so re-application is not idempotent. -/
theorem path_mapping_idempotence_counterexample :
    startswith "a" "ab" = false ∧
    apply_output_path_mapping [("ab", "a")] "abb" = "ab" ∧
    apply_output_path_mapping [("ab", "a")] "ab" = "a" := by decide

/-- C3 (amended): the mapping replaces the first matching source prefix
with that entry's destination prefix and returns the path unchanged when no
entry matches; it is idempotent under re-application whenever no source
prefix of the table starts with a destination prefix and no destination
prefix starts with a source prefix. -/
theorem path_mapping_spec (m : List (String × String)) (p : String) :
    ((∀ e ∈ m, startswith p e.1 = false) → apply_output_path_mapping m p = p) ∧
    (∀ m₁ s d m₂, m = m₁ ++ (s, d) :: m₂ →
      (∀ e ∈ m₁, startswith p e.1 = false) → startswith p s = true →
      apply_output_path_mapping m p = ⟨d.data ++ p.data.drop s.data.length⟩) ∧
    ((∀ e ∈ m, ∀ e' ∈ m, startswith e.2 e'.1 = false ∧ startswith e'.1 e.2 = false) →
      apply_output_path_mapping m (apply_output_path_mapping m p)
        = apply_output_path_mapping m p) := by
  refine ⟨apply_output_path_mapping_nomatch m p, ?_, ?_⟩
  · rintro m₁ s d m₂ rfl h₁ hs
    exact apply_output_path_mapping_first m₁ s d m₂ p h₁ hs
  · intro hcond
    rcases apply_output_path_mapping_cases m p with h | ⟨s, d, hm, hs, he⟩
    · rw [h]; exact h
    · rw [he]
      apply apply_output_path_mapping_nomatch
      intro e' he'
      cases hb : startswith (⟨d.data ++ p.data.drop s.data.length⟩ : String) e'.1 with
      | false => rfl
      | true =>
        exfalso
        have hpre : e'.1.data <+: d.data ++ p.data.drop s.data.length := by
          simpa using startswith_iff.mp hb
        rcases prefix_append_cases d.data e'.1.data _ hpre with h1 | h1
        · have hT : startswith d e'.1 = true := startswith_iff.mpr h1
          have h2 : startswith d e'.1 = false := (hcond (s, d) hm e' he').1
          rw [hT] at h2
          exact Bool.noConfusion h2
        · have hT : startswith e'.1 d = true := startswith_iff.mpr h1
          have h2 : startswith e'.1 d = false := (hcond (s, d) hm e' he').2
          rw [hT] at h2
          exact Bool.noConfusion h2

/-- Witness for the amended C3 theorem at a concrete table and paths. -/
theorem path_mapping_spec_witness :
    apply_output_path_mapping [("/media", "/mnt")] "/x" = "/x" ∧
    apply_output_path_mapping [("/media", "/mnt")]
        (apply_output_path_mapping [("/media", "/mnt")] "/media/a")
      = apply_output_path_mapping [("/media", "/mnt")] "/media/a" :=
  ⟨(path_mapping_spec [("/media", "/mnt")] "/x").1 (by decide),
   (path_mapping_spec [("/media", "/mnt")] "/media/a").2.2 (by decide)⟩

/-- C4 counterexample: a config file whose JSON sets `max_concurrent_jobs`
to `0` is returned unvalidated, so the resulting `Config` violates the
claimed lower bound of 1. -/
theorem load_config_max_concurrent_jobs_counterexample :
    (load_config (some doc0)).max_concurrent_jobs = 0 ∧
    ¬ (1 ≤ (load_config (some doc0)).max_concurrent_jobs) := by decide

/-- C4 (amended): `load_config` yields `max_concurrent_jobs = 1` when the
config file is absent or its `max_concurrent_jobs` key is missing, and
otherwise passes the configured value through unvalidated, so the result is
at least 1 exactly when the configured value is. -/
theorem load_config_max_concurrent_jobs_spec (doc : Option ConfigDoc) :
    ((doc = none ∨ ∃ d, doc = some d ∧ d.max_concurrent_jobs = none) →
      (load_config doc).max_concurrent_jobs = 1) ∧
    (∀ d v, doc = some d → d.max_concurrent_jobs = some v →
      (load_config doc).max_concurrent_jobs = v) := by
  constructor
  · rintro (rfl | ⟨d, rfl, hd⟩)
    · rfl
    · cases hp : d.presets with
      | none => simp [load_config, hp, hd]
      | some l => cases l <;> simp [load_config, hp, hd]
  · rintro d v rfl hv
    cases hp : d.presets with
    | none => simp [load_config, hp, hv]
    | some l => cases l <;> simp [load_config, hp, hv]

/-- Witness for the amended C4 theorem: absent file gives 1, a configured
value of 7 is passed through. -/
theorem load_config_max_concurrent_jobs_spec_witness :
    (load_config none).max_concurrent_jobs = 1 ∧
    (load_config (some doc7)).max_concurrent_jobs = 7 :=
  ⟨(load_config_max_concurrent_jobs_spec none).1 (Or.inl rfl),
   (load_config_max_concurrent_jobs_spec _).2 doc7 7 rfl rfl⟩

/-- C8: with the config file absent, or present with the `presets` key
absent or empty, `load_config` returns exactly the three default presets
`high`, `medium`, `low`, and `low` is hevc/480p/.mkv with crf 28 and
fallback allowed. -/
theorem load_config_default_presets_spec (d : ConfigDoc) :
    (load_config none).presets = default_presets ∧
    (d.presets = none ∨ d.presets = some [] →
      (load_config (some d)).presets = default_presets) ∧
    default_presets.map Prod.fst = ["high", "medium", "low"] ∧
    default_presets.lookup "low" = some
      { codec := "hevc", scale := "480p", container := ".mkv",
        audio_codec := "aac", audio_bitrate := "96k",
        crf := 28, allow_fallback := true } := by
  refine ⟨rfl, ?_, by decide, by decide⟩
  rintro (hp | hp) <;> simp [load_config, hp]

/-- Witness for the C8 theorem at the empty config document. -/
theorem load_config_default_presets_spec_witness :
    (load_config (some docEmpty)).presets = default_presets :=
  (load_config_default_presets_spec docEmpty).2.1 (Or.inl rfl)

/-- C2 counterexample: a POST whose preset name is unknown but whose media
id is also unknown is flashed `"Media not found"` (not `"Invalid preset"`)
and redirected to the index page; no job is created. -/
theorem transcode_invalid_preset_counterexample :
    ("nope" ∉ (load_config none).presets.map Prod.fst) ∧
    (transcode none (load_config none) "nope").jobCreated = false ∧
    (transcode none (load_config none) "nope").flash = "Media not found" ∧
    (transcode none (load_config none) "nope").flash ≠ "Invalid preset" ∧
    (transcode none (load_config none) "nope").redirect = Route.index := by decide

/-- C2 (amended): when the media item exists and the preset name is not a
key of the configured presets, no job is created or started, the caller is
flashed `"Invalid preset"`, and the handler redirects back to the media or
show page; when the media item does not exist no job is created or started
either. -/
theorem transcode_invalid_preset_spec (cfg : ConfigModel) (media_item : MediaItem)
    (preset_name : String) :
    (preset_name ∉ cfg.presets.map Prod.fst →
      (transcode (some media_item) cfg preset_name).jobCreated = false ∧
      (transcode (some media_item) cfg preset_name).jobStarted = false ∧
      (transcode (some media_item) cfg preset_name).flash = "Invalid preset" ∧
      ((transcode (some media_item) cfg preset_name).redirect
          = Route.mediaDetail media_item.id ∨
       (transcode (some media_item) cfg preset_name).redirect
          = Route.showDetail media_item.show_id)) ∧
    (transcode none cfg preset_name).jobCreated = false ∧
    (transcode none cfg preset_name).jobStarted = false := by
  refine ⟨?_, rfl, rfl⟩
  intro h
  obtain ⟨i, ty, sid, pa, dn⟩ := media_item
  cases ty <;> simp [transcode, h]

/-- Witness for the amended C2 theorem at a concrete movie and the default
configuration. -/
theorem transcode_invalid_preset_spec_witness :
    (transcode (some movie0) (load_config none) "nope").flash = "Invalid preset" ∧
    (transcode (some movie0) (load_config none) "nope").jobCreated = false :=
  ⟨((transcode_invalid_preset_spec (load_config none) movie0 "nope").1 (by decide)).2.2.1,
   ((transcode_invalid_preset_spec (load_config none) movie0 "nope").1 (by decide)).1⟩

/-- Counting `processing` jobs across a cons cell. -/
theorem numProcessing_cons (a : Nat × JStatus) (t : Registry) :
    numProcessing (a :: t)
      = numProcessing t + (if a.2 = JStatus.processing then 1 else 0) := by
  simp [numProcessing, List.countP_cons]

/-- Setting the status of an identifier not present in the registry is a
no-op. -/
theorem setStatus_not_mem (r : Registry) (id : Nat) (st : JStatus)
    (h : id ∉ r.map Prod.fst) : setStatus r id st = r := by
  induction r with
  | nil => rfl
  | cons a t ih =>
    simp only [List.map_cons, List.mem_cons, not_or] at h
    have ha : ¬ a.1 = id := fun hh => h.1 hh.symm
    simp only [setStatus, List.map_cons, if_neg ha]
    exact congrArg (a :: ·) (ih h.2)

/-- `setStatus` preserves the identifier column of the registry. -/
theorem map_fst_setStatus (r : Registry) (id : Nat) (st : JStatus) :
    (setStatus r id st).map Prod.fst = r.map Prod.fst := by
  rw [setStatus, List.map_map]
  apply List.map_congr_left
  intro p _
  simp only [Function.comp_apply]
  split
  · next h => exact h.symm
  · rfl

/-- A successful registry lookup yields a member of the registry. -/
theorem lookup_mem (r : Registry) (id : Nat) (st : JStatus)
    (h : r.lookup id = some st) : (id, st) ∈ r := by
  induction r with
  | nil => simp [List.lookup] at h
  | cons a t ih =>
    obtain ⟨k, v⟩ := a
    by_cases hk : id = k
    · subst hk
      simp [List.lookup_cons] at h
      simp [h]
    · have hbeq : (id == k) = false := beq_eq_false_iff_ne.mpr hk
      rw [List.lookup_cons, hbeq] at h
      exact List.mem_cons_of_mem _ (ih h)

/-- How `setStatus` changes the number of `processing` jobs, for a registry
with no duplicate identifiers containing the rewritten entry. -/
theorem numProcessing_setStatus (r : Registry) (id : Nat) (oldst newst : JStatus)
    (hnd : (r.map Prod.fst).Nodup) (hmem : (id, oldst) ∈ r) :
    numProcessing (setStatus r id newst)
        + (if oldst = JStatus.processing then 1 else 0)
      = numProcessing r + (if newst = JStatus.processing then 1 else 0) := by
  induction r with
  | nil => cases hmem
  | cons a t ih =>
    rw [List.map_cons, List.nodup_cons] at hnd
    rcases List.mem_cons.mp hmem with heq | hmem'
    · subst heq
      have ht : setStatus t id newst = t := setStatus_not_mem t id newst hnd.1
      simp only [setStatus, List.map_cons, if_pos rfl]
      rw [show List.map (fun p => if p.1 = id then (id, newst) else p) t
            = setStatus t id newst from rfl, ht]
      rw [numProcessing_cons, numProcessing_cons]
      split_ifs <;> omega
    · have ha : ¬ a.1 = id := by
        intro hh
        exact hnd.1 (hh ▸ List.mem_map_of_mem Prod.fst hmem')
      simp only [setStatus, List.map_cons, if_neg ha]
      rw [show List.map (fun p => if p.1 = id then (id, newst) else p) t
            = setStatus t id newst from rfl]
      rw [numProcessing_cons, numProcessing_cons]
      have := ih hnd.2 hmem'
      omega

/-- Invariant of the scheduler transition system: reachable registries have
no duplicate identifiers and never hold more than `limit` jobs in
`processing`. -/
theorem reachable_inv {limit : Nat} {r : Registry} (h : Reachable limit r) :
    (r.map Prod.fst).Nodup ∧ numProcessing r ≤ limit := by
  induction h with
  | init => exact ⟨List.nodup_nil, by simp [numProcessing]⟩
  | @step r r' hr hs ih =>
    obtain ⟨ihnd, ihle⟩ := ih
    cases hs with
    | submit id hfresh =>
      constructor
      · rw [List.map_append, List.nodup_append]
        refine ⟨ihnd, by simp, fun x hx hx' => ?_⟩
        simp at hx'
        subst hx'
        exact hfresh hx
      · simpa [numProcessing, List.countP_append] using ihle
    | admitJob id hslot hhead =>
      have hfind : ∃ a, r.find? (fun p => decide (p.2 = JStatus.pending)) = some a
          ∧ a.1 = id := by
        simpa [firstPending, Option.map_eq_some'] using hhead
      obtain ⟨a, hfa, hid⟩ := hfind
      have hpend : a.2 = JStatus.pending := by simpa using List.find?_some hfa
      have hmem : (id, JStatus.pending) ∈ r := by
        have hm := List.mem_of_find?_eq_some hfa
        rwa [show a = (id, JStatus.pending) from Prod.ext hid hpend] at hm
      constructor
      · rw [map_fst_setStatus]; exact ihnd
      · have hc := numProcessing_setStatus r id JStatus.pending JStatus.processing ihnd hmem
        simp at hc
        omega
    | finish id st hrun hterm =>
      have hmem := lookup_mem r id _ hrun
      constructor
      · rw [map_fst_setStatus]; exact ihnd
      · have hc := numProcessing_setStatus r id JStatus.processing st ihnd hmem
        have hne : ¬ st = JStatus.processing := by
          cases st <;> simp_all [isTerminal]
        simp [hne] at hc
        omega
    | cancelPending id hpend =>
      have hmem := lookup_mem r id _ hpend
      constructor
      · rw [map_fst_setStatus]; exact ihnd
      · have hc := numProcessing_setStatus r id JStatus.pending JStatus.cancelled ihnd hmem
        simp at hc
        omega
    | removeJob id st hst hterm =>
      constructor
      · exact ihnd.sublist (List.Sublist.map Prod.fst (List.filter_sublist r))
      · exact le_trans (List.Sublist.countP_le _ (List.filter_sublist r)) ihle

/-- C1: at every instant of every execution of the modelled scheduler —
any interleaving of submissions (including bursts beyond the ceiling),
admissions, worker completions, cancellations and removals — the number of
jobs whose status is `processing` is at most the configured
`max_concurrent_jobs` ceiling. -/
theorem processing_never_exceeds_limit (limit : Nat) (r : Registry)
    (h : Reachable limit r) : numProcessing r ≤ limit :=
  (reachable_inv h).2

/-- Witness for the C1 theorem: submit one job and admit it under a
ceiling of 1. -/
theorem processing_never_exceeds_limit_witness :
    numProcessing (setStatus ([] ++ [(0, JStatus.pending)]) 0 JStatus.processing) ≤ 1 :=
  processing_never_exceeds_limit 1 _
    (Reachable.step
      (Reachable.step Reachable.init (SchedStep.submit [] 0 (by decide)))
      (SchedStep.admitJob ([] ++ [(0, JStatus.pending)]) 0 (by decide) (by decide)))

/-- The `job_data` dict always carries the job it was built from. -/
theorem mk_job_data_job (env : JobsEnv) (j : Job) : (mk_job_data env j).job = j := by
  unfold mk_job_data
  split
  · rfl
  · split
    · rfl
    · rfl

/-- The grouping fold of the `jobs` view appends, to each accumulator
component, the rows of the jobs that categorize into that component, in
order. -/
theorem jobs_foldl_eq (env : JobsEnv) (js : List Job)
    (acc : List JobData × List JobData × List JobData) :
    js.foldl
      (fun acc job =>
        let job_data := mk_job_data env job
        match categorize job with
        | JobGroup.active => (acc.1 ++ [job_data], acc.2.1, acc.2.2)
        | JobGroup.completedGroup => (acc.1, acc.2.1 ++ [job_data], acc.2.2)
        | JobGroup.failedGroup => (acc.1, acc.2.1, acc.2.2 ++ [job_data]))
      acc
    = (acc.1 ++ (js.filter
          (fun j => decide (categorize j = JobGroup.active))).map (mk_job_data env),
       acc.2.1 ++ (js.filter
          (fun j => decide (categorize j = JobGroup.completedGroup))).map (mk_job_data env),
       acc.2.2 ++ (js.filter
          (fun j => decide (categorize j = JobGroup.failedGroup))).map (mk_job_data env)) := by
  induction js generalizing acc with
  | nil => simp
  | cons j t ih =>
    rw [List.foldl_cons]
    cases hcat : categorize j <;>
      simp [hcat, ih, List.filter_cons, List.append_assoc]

/-- The `jobs` view in closed form: each group is the rows of the jobs of
that category, with the active group sorted. -/
theorem jobs_eq (env : JobsEnv) (js : List Job) :
    jobs env js
      = (sortActive ((js.filter
            (fun j => decide (categorize j = JobGroup.active))).map (mk_job_data env)),
         (js.filter
            (fun j => decide (categorize j = JobGroup.completedGroup))).map (mk_job_data env),
         (js.filter
            (fun j => decide (categorize j = JobGroup.failedGroup))).map (mk_job_data env)) := by
  unfold jobs
  rw [jobs_foldl_eq]
  simp

/-- The three category filters partition any list of jobs, counted by any
predicate. -/
theorem countP_filter_groups (q : Job → Bool) (l : List Job) :
    ((l.filter (fun j => decide (categorize j = JobGroup.active))).countP q)
      + ((l.filter (fun j => decide (categorize j = JobGroup.completedGroup))).countP q)
      + ((l.filter (fun j => decide (categorize j = JobGroup.failedGroup))).countP q)
      = l.countP q := by
  induction l with
  | nil => rfl
  | cons j t ih =>
    cases hcat : categorize j <;>
      simp [List.filter_cons, hcat, List.countP_cons, ih] <;>
      omega

/-- The stable two-key sort of the active rows preserves counts. -/
theorem countP_sortActive (q : JobData → Bool) (l : List JobData) :
    (sortActive l).countP q = l.countP q := by
  rw [sortActive, List.countP_append]
  rw [show l.filter (fun jd => decide (jd.job.status ≠ "processing"))
        = l.filter (fun jd => !(decide (jd.job.status = "processing"))) from
      List.filter_congr (fun jd _ => by
        by_cases h : jd.job.status = "processing" <;> simp [h])]
  exact (List.countP_eq_countP_filter_add l q
    (fun jd => decide (jd.job.status = "processing"))).symm

/-- Counting rows built from jobs by the predicate "this row is job `j`". -/
theorem countP_map_mk_job_data (env : JobsEnv) (j : Job) (l : List Job) :
    (l.map (mk_job_data env)).countP (fun jd => decide (jd.job = j))
      = l.countP (fun x => decide (x = j)) := by
  rw [List.countP_map]
  apply List.countP_congr
  intro a _
  simp [Function.comp, mk_job_data_job]

/-- A job of one category contributes no row to a different category's
group. -/
theorem countP_other_group (env : JobsEnv) (js : List Job) (j : Job) (g : JobGroup)
    (hg : categorize j ≠ g) :
    ((js.filter (fun x => decide (categorize x = g))).map (mk_job_data env)).countP
      (fun jd => decide (jd.job = j)) = 0 := by
  rw [countP_map_mk_job_data]
  apply List.countP_eq_zero.mpr
  intro x hx
  obtain ⟨hxm, hxg⟩ := List.mem_filter.mp hx
  simp only [decide_eq_true_eq] at hxg ⊢
  intro hxe
  subst hxe
  exact hg hxg

/-- Which group each status string categorizes into. -/
theorem categorize_status (j : Job) :
    (j.status = "processing" ∨ j.status = "pending" → categorize j = JobGroup.active) ∧
    (j.status = "completed" → categorize j = JobGroup.completedGroup) ∧
    (j.status ≠ "processing" → j.status ≠ "pending" → j.status ≠ "completed" →
      categorize j = JobGroup.failedGroup) := by
  refine ⟨fun h => ?_, fun h => ?_, fun h1 h2 h3 => ?_⟩
  · simp [categorize, h]
  · have hno : ¬ (j.status = "processing" ∨ j.status = "pending") := by
      rw [h]; decide
    simp [categorize, hno, h]
  · simp [categorize, h1, h2, h3]

/-- C5: the `jobs` view partitions the registry's jobs into exactly three
groups by status — counted with multiplicity, every job appears in the
three groups exactly as often as it appears in the registry, a
`processing`/`pending` job only in the active group, a `completed` job only
in the completed group, and a job with any other status only in the failed
group. -/
theorem jobs_partition (env : JobsEnv) (js : List Job) (j : Job) :
    ((jobs env js).1.countP (fun jd => decide (jd.job = j))
        + (jobs env js).2.1.countP (fun jd => decide (jd.job = j))
        + (jobs env js).2.2.countP (fun jd => decide (jd.job = j))
      = js.countP (fun x => decide (x = j))) ∧
    (j.status = "processing" ∨ j.status = "pending" →
      (jobs env js).2.1.countP (fun jd => decide (jd.job = j)) = 0 ∧
      (jobs env js).2.2.countP (fun jd => decide (jd.job = j)) = 0) ∧
    (j.status = "completed" →
      (jobs env js).1.countP (fun jd => decide (jd.job = j)) = 0 ∧
      (jobs env js).2.2.countP (fun jd => decide (jd.job = j)) = 0) ∧
    (j.status ≠ "processing" → j.status ≠ "pending" → j.status ≠ "completed" →
      (jobs env js).1.countP (fun jd => decide (jd.job = j)) = 0 ∧
      (jobs env js).2.1.countP (fun jd => decide (jd.job = j)) = 0) := by
  have h1 : (jobs env js).1 = sortActive ((js.filter
      (fun x => decide (categorize x = JobGroup.active))).map (mk_job_data env)) := by
    rw [jobs_eq]
  have h2 : (jobs env js).2.1 = (js.filter
      (fun x => decide (categorize x = JobGroup.completedGroup))).map (mk_job_data env) := by
    rw [jobs_eq]
  have h3 : (jobs env js).2.2 = (js.filter
      (fun x => decide (categorize x = JobGroup.failedGroup))).map (mk_job_data env) := by
    rw [jobs_eq]
  refine ⟨?_, fun hs => ?_, fun hs => ?_, fun hs1 hs2 hs3 => ?_⟩
  · rw [h1, h2, h3, countP_sortActive, countP_map_mk_job_data,
      countP_map_mk_job_data, countP_map_mk_job_data, countP_filter_groups]
  · have hcat := (categorize_status j).1 hs
    constructor
    · rw [h2]
      exact countP_other_group env js j _ (by simp [hcat])
    · rw [h3]
      exact countP_other_group env js j _ (by simp [hcat])
  · have hcat := (categorize_status j).2.1 hs
    constructor
    · rw [h1, countP_sortActive]
      exact countP_other_group env js j _ (by simp [hcat])
    · rw [h3]
      exact countP_other_group env js j _ (by simp [hcat])
  · have hcat := (categorize_status j).2.2 hs1 hs2 hs3
    constructor
    · rw [h1, countP_sortActive]
      exact countP_other_group env js j _ (by simp [hcat])
    · rw [h2]
      exact countP_other_group env js j _ (by simp [hcat])

/-- Witness for the C5 theorem: a completed job contributes no row to the
active or failed groups. -/
theorem jobs_partition_witness :
    (jobs env0 [job0]).1.countP (fun jd => decide (jd.job = job0)) = 0 ∧
    (jobs env0 [job0]).2.2.countP (fun jd => decide (jd.job = job0)) = 0 :=
  (jobs_partition env0 [job0] job0).2.2.1 rfl

/-- C6: a cancellation request never aborts the caller's request — the
cancel operation reports `false` for a job already in a terminal state, the
handler flashes "Could not cancel job" on `false` and a success message on
`true`, and in both cases the route completes with a redirect to the jobs
page. -/
theorem cancel_job_spec (r : Registry) (job_id : Nat) :
    (∀ st, r.lookup job_id = some st → isTerminal st = true →
      cancel_transcode_job r job_id = false) ∧
    (cancel_transcode_job r job_id = false →
      (cancel_job r job_id).flash = "Could not cancel job" ∧
      (cancel_job r job_id).flashCategory = "error") ∧
    (cancel_transcode_job r job_id = true →
      (cancel_job r job_id).flash = "Job cancelled successfully" ∧
      (cancel_job r job_id).flashCategory = "message") ∧
    (cancel_job r job_id).redirect = Route.jobsPage := by
  refine ⟨fun st hst hterm => ?_, fun hf => ?_, fun ht => ?_, ?_⟩
  · simp [cancel_transcode_job, hst, hterm]
  · simp [cancel_job, hf]
  · simp [cancel_job, ht]
  · by_cases h : cancel_transcode_job r job_id <;> simp [cancel_job, h]

/-- Witness for the C6 theorem on a registry holding one completed job. -/
theorem cancel_job_spec_witness :
    cancel_transcode_job [(0, JStatus.completed)] 0 = false ∧
    (cancel_job [(0, JStatus.completed)] 0).flash = "Could not cancel job" :=
  ⟨(cancel_job_spec [(0, JStatus.completed)] 0).1 JStatus.completed rfl rfl,
   ((cancel_job_spec [(0, JStatus.completed)] 0).2.1 rfl).1⟩

/-- C7: completed-transcode deletion returns a structured (success,
message) pair — deleting an existing removable entry removes both the
output file and its metadata record, deleting a non-existent filename
reports failure and leaves the store unchanged, and in every outcome the
route surfaces the message in its flash and redirects to the completed
page. -/
theorem delete_transcode_spec (store : CompletedStore) (filename : String) :
    (filename ∈ store.files → store.removable filename = true →
      (delete_transcode store filename).1.1 = true ∧
      filename ∉ (delete_transcode store filename).2.files ∧
      filename ∉ (delete_transcode store filename).2.metaFiles) ∧
    (filename ∉ store.files →
      (delete_transcode store filename).1.1 = false ∧
      (delete_transcode store filename).2 = store) ∧
    ((delete_completed_transcode store filename).1.flash
      = (if (delete_transcode store filename).1.1 then "Transcode deleted: "
         else "Error deleting transcode: ") ++ (delete_transcode store filename).1.2) ∧
    ((delete_completed_transcode store filename).1.redirect = Route.completedPage) := by
  refine ⟨fun hin hrem => ?_, fun hout => ?_, ?_, ?_⟩
  · by_cases hmeta : filename ∈ store.metaFiles <;>
      simp [delete_transcode, hin, hrem, hmeta, List.mem_filter]
  · simp [delete_transcode, hout]
  · by_cases h : (delete_transcode store filename).1.1 <;>
      simp [delete_completed_transcode, h]
  · by_cases h : (delete_transcode store filename).1.1 <;>
      simp [delete_completed_transcode, h]

/-- Witness for the C7 theorem on a store holding one tracked artifact. -/
theorem delete_transcode_spec_witness :
    (delete_transcode store0 "a.mkv").1.1 = true ∧
    "a.mkv" ∉ (delete_transcode store0 "a.mkv").2.files ∧
    "a.mkv" ∉ (delete_transcode store0 "a.mkv").2.metaFiles :=
  (delete_transcode_spec store0 "a.mkv").1 (by decide) rfl

/-- C9: in both the jobs view and the completed view, the
percentage-smaller figure is computed only under a guard that the original
size is strictly positive, and a zero original size falls back to a plain
size display, so the size ratio is never formed with a zero original
size. -/
theorem size_comparison_guarded (env : JobsEnv) (j : Job) (m : MediaItem)
    (rec : CompletedRecord) :
    (∀ o u q, job_size_display env j m = some (SizeDisplay.cmp o u q) → 0 < o) ∧
    (∀ o u q, completed_size_display env rec = some (SizeDisplay.cmp o u q) → 0 < o) ∧
    (∀ sd, job_size_display env j m = some sd → env.fileSize m.path = some 0 →
      sd = SizeDisplay.origOnly 0) ∧
    (∀ sd op u, completed_size_display env rec = some sd →
      rec.original_path = some op → env.pathExists op = true →
      env.fileSize op = some 0 → env.fileSize rec.file_path = some u →
      sd = SizeDisplay.outOnly u) := by
  refine ⟨fun o u q h => ?_, fun o u q h => ?_, fun sd h h0 => ?_,
    fun sd op u h hop hex h0 hu => ?_⟩
  · unfold job_size_display at h
    cases hfs : env.fileSize m.path with
    | none => simp [hfs] at h
    | some orig =>
      simp only [hfs] at h
      cases hop : j.output_path with
      | none => simp [hop] at h
      | some op =>
        simp only [hop] at h
        by_cases hg : j.status = "completed" ∧ op ≠ "" ∧ env.pathExists op = true
        · simp only [if_pos hg] at h
          cases hout : env.fileSize op with
          | none => simp [hout] at h
          | some out =>
            simp only [hout] at h
            by_cases hpos : 0 < orig
            · simp only [if_pos hpos] at h
              simp at h
              exact h.1 ▸ hpos
            · simp only [if_neg hpos] at h
              simp at h
        · simp only [if_neg hg] at h
          simp at h
  · unfold completed_size_display at h
    cases hop : rec.original_path with
    | none => simp [hop] at h
    | some op =>
      simp only [hop] at h
      by_cases hex : env.pathExists op = true
      · simp only [if_pos hex] at h
        cases h1 : env.fileSize op with
        | none => simp [h1] at h
        | some orig =>
          cases h2 : env.fileSize rec.file_path with
          | none => simp [h1, h2] at h
          | some out =>
            simp only [h1, h2] at h
            by_cases hpos : 0 < orig
            · simp only [if_pos hpos] at h
              simp at h
              exact h.1 ▸ hpos
            · simp only [if_neg hpos] at h
              simp at h
      · simp only [if_neg hex] at h
        simp at h
  · unfold job_size_display at h
    simp only [h0] at h
    cases hop : j.output_path with
    | none =>
      simp [hop] at h
      exact h.symm
    | some op =>
      simp only [hop] at h
      by_cases hg : j.status = "completed" ∧ op ≠ "" ∧ env.pathExists op = true
      · simp only [if_pos hg] at h
        cases hout : env.fileSize op with
        | none => simp [hout] at h
        | some out =>
          simp only [hout] at h
          simp at h
          exact h.symm
      · simp only [if_neg hg] at h
        simp at h
        exact h.symm
  · unfold completed_size_display at h
    simp only [hop, if_pos hex, h0, hu] at h
    simp at h
    exact h.symm

/-- Witness for the C9 theorem: a 4-byte original and 1-byte output
produce the exact 75% figure, and its original size is positive. -/
theorem size_comparison_guarded_witness :
    job_size_display env0 job0 movie0
      = some (SizeDisplay.cmp 4 1 (100 - ((1 : Nat) : ℚ) / ((4 : Nat) : ℚ) * 100)) ∧
    (0 : Nat) < 4 :=
  ⟨rfl, (size_comparison_guarded env0 job0 movie0 rec0).1 4 1
    (100 - ((1 : Nat) : ℚ) / ((4 : Nat) : ℚ) * 100) rfl⟩

/-- C10: `download_file` sends a file only when the requested filename
joined to the path-mapped transcode root exists, is a regular file, and its
real path starts with the real path of that root; the file sent is exactly
that joined path, and every request failing a check is answered with a
flash and a redirect to the completed page. -/
theorem download_file_spec (fs : FS) (cfg : ConfigModel) (filename : String) :
    (∀ p, download_file fs cfg filename = DlResult.sendFile p →
      p = download_file_path cfg filename ∧
      fs.pathExists p = true ∧ fs.isfile p = true ∧
      startswith (fs.realpath p) (fs.realpath (mapped_transcode_path cfg)) = true) ∧
    (fs.pathExists (download_file_path cfg filename) = true →
      fs.isfile (download_file_path cfg filename) = true →
      startswith (fs.realpath (download_file_path cfg filename))
          (fs.realpath (mapped_transcode_path cfg)) = true →
      download_file fs cfg filename
        = DlResult.sendFile (download_file_path cfg filename)) ∧
    (¬ (fs.pathExists (download_file_path cfg filename) = true ∧
        fs.isfile (download_file_path cfg filename) = true) →
      download_file fs cfg filename = DlResult.redirectCompleted "File not found") ∧
    (fs.pathExists (download_file_path cfg filename) = true →
      fs.isfile (download_file_path cfg filename) = true →
      startswith (fs.realpath (download_file_path cfg filename))
          (fs.realpath (mapped_transcode_path cfg)) = false →
      download_file fs cfg filename = DlResult.redirectCompleted "Invalid file path") := by
  refine ⟨fun p hp => ?_, fun h1 h2 h3 => ?_, fun h => ?_, fun h1 h2 h3 => ?_⟩
  · by_cases hA : fs.pathExists (download_file_path cfg filename) = true ∧
        fs.isfile (download_file_path cfg filename) = true
    · by_cases hB : startswith (fs.realpath (download_file_path cfg filename))
          (fs.realpath (mapped_transcode_path cfg)) = true
      · simp only [download_file, hA, not_true_eq_false, if_false, hB,
          not_false_eq_true, if_true] at hp
        simp at hp
        exact ⟨hp.symm, hp ▸ hA.1, hp ▸ hA.2, hp ▸ hB⟩
      · simp [download_file, hA.1, hA.2, hB] at hp
    · simp [download_file, hA] at hp
  · simp [download_file, h1, h2, h3]
  · simp [download_file, h]
  · simp [download_file, h1, h2, h3]

/-- Witness for the C10 theorem: on a filesystem where every check passes,
the joined path under the default transcode root is sent. -/
theorem download_file_spec_witness :
    download_file fs0 (load_config none) "out.mkv"
      = DlResult.sendFile (download_file_path (load_config none) "out.mkv") :=
  (download_file_spec fs0 (load_config none) "out.mkv").2.1 rfl rfl (by decide)
